import Mathlib

/-!
Verification of the prompt-assembly core of `ai-dial-adapter-bedrock`.

The development shallowly embeds:
* the canonical message model (`aidial_adapter_bedrock/llm/message.py`),
* the tool/function translator (`llm/model/claude/v3/tools.py`),
* the finish-reason mapper (`llm/model/claude/v3/converters.py`),
* the prompt truncation algorithm and the Llama chat emulator, whose
  implementation files are not part of the provided sources; those two are
  modelled from the specification and checked against the unit tests in
  `tests/unit_tests/chat_emulation/test_llama_chat.py`.
-/

namespace Bedrock

/-- `FunctionCall` from the aidial SDK: a name plus JSON-encoded arguments. -/
structure FunctionCall where
  name : String
  arguments : String
deriving DecidableEq, Repr

/-- `ToolCall` from the aidial SDK: optional index, id, a type tag and the
wrapped function call. -/
structure ToolCall where
  index : Option Nat
  id : String
  type : String
  function : FunctionCall
deriving DecidableEq, Repr

/-- `Attachment` from the aidial SDK (the fields used by this core). -/
structure Attachment where
  type : Option String
  data : Option String
  url : Option String
deriving DecidableEq, Repr

/-- `CustomContent` from the aidial SDK (the field used by this core). -/
structure CustomContent where
  attachments : Option (List Attachment)
deriving DecidableEq, Repr

/-- The closed set of message variants of `llm/message.py`
(`SystemMessage`, `HumanRegularMessage`, `AIRegularMessage`,
`AIToolCallMessage`, `AIFunctionCallMessage`, `HumanToolResultMessage`,
`HumanFunctionResultMessage`). -/
inductive Msg where
  | systemMessage (content : String)
  | humanRegularMessage (content : String) (customContent : Option CustomContent)
  | aiRegularMessage (content : String) (customContent : Option CustomContent)
  | aiToolCallMessage (calls : List ToolCall) (content : Option String)
  | aiFunctionCallMessage (call : FunctionCall) (content : Option String)
  | humanToolResultMessage (id : String) (content : String)
  | humanFunctionResultMessage (name : String) (content : String)
deriving DecidableEq, Repr

/-- Membership in the `BaseMessage` union of `llm/message.py`
(`SystemMessage | HumanRegularMessage | AIRegularMessage`). -/
def Msg.isBaseMessage : Msg → Bool
  | .systemMessage _ => true
  | .humanRegularMessage _ _ => true
  | .aiRegularMessage _ _ => true
  | _ => false

/-- Membership in the `ToolMessage` union of `llm/message.py`. -/
def Msg.isToolMessage : Msg → Bool
  | .humanToolResultMessage _ _ => true
  | .humanFunctionResultMessage _ _ => true
  | .aiToolCallMessage _ _ => true
  | .aiFunctionCallMessage _ _ => true
  | _ => false

/-- `ToolsMode` of `llm/tools/tools_config.py`: the negotiated calling
convention. Mode absence is represented as `Option ToolsMode = none`. -/
inductive ToolsMode where
  | TOOLS
  | FUNCTIONS
deriving DecidableEq, Repr

/-- The two kinds of exception `process_with_tools` can raise:
`ValidationError` on a convention/mode conflict and plain `ValueError` on the
unreachable fall-through arm. -/
inductive ToolsError where
  | validation (message : String)
  | valueError (message : String)
deriving DecidableEq, Repr

/-- `process_with_tools` of `llm/model/claude/v3/tools.py` (lines 50-102):
mode reconciliation of a single message. -/
def process_with_tools (message : Msg) (tools_mode : Option ToolsMode) :
    Except ToolsError Msg :=
  match tools_mode with
  | none =>
      if message.isBaseMessage then .ok message
      else .error (.validation
        "You cannot use messages with functions or tools without config. Please change your messages.")
  | some .TOOLS =>
      match message with
      | .humanFunctionResultMessage _ _ | .aiFunctionCallMessage _ _ =>
          .error (.validation "You cannot use function messages with tools config.")
      | m => .ok m
  | some .FUNCTIONS =>
      match message with
      | .humanRegularMessage c cc => .ok (.humanRegularMessage c cc)
      | .humanToolResultMessage _ _ | .aiToolCallMessage _ _ =>
          .error (.validation "You cannot use tools messages with functions config.")
      | .aiFunctionCallMessage call content =>
          .ok (.aiToolCallMessage
            [{ index := none, id := call.name, type := "function", function := call }]
            content)
      | .humanFunctionResultMessage name content =>
          .ok (.humanToolResultMessage name content)
      | m => .error (.valueError ("Unknown message type " ++ reprStr m))

/-- The inverse direction of the `FUNCTIONS`-mode rewrite: recover the
function-call / function-result message from the tool-shaped message that
`process_with_tools` synthesizes (the synthetic tool id is the function
name). -/
def functions_rewrite_inverse : Msg → Option Msg
  | .aiToolCallMessage [tc] content => some (.aiFunctionCallMessage tc.function content)
  | .humanToolResultMessage id content => some (.humanFunctionResultMessage id content)
  | _ => none

/-- `ClaudeFinishReason` of `llm/model/claude/v3/converters.py`:
the closed literal type of backend stop reasons. -/
inductive ClaudeFinishReason where
  | end_turn
  | max_tokens
  | stop_sequence
  | tool_use
deriving DecidableEq, Repr

/-- `FinishReason` of the aidial SDK (the values used by the mapper). -/
inductive FinishReason where
  | STOP
  | LENGTH
  | TOOL_CALLS
  | FUNCTION_CALL
deriving DecidableEq, Repr

/-- `to_dial_finish_reason` of `llm/model/claude/v3/converters.py`
(lines 198-226). A raised `ValidationError` is the `.error` branch. -/
def to_dial_finish_reason (finish_reason : Option ClaudeFinishReason)
    (tools_mode : Option ToolsMode) : Except String FinishReason :=
  match finish_reason with
  | none => .ok .STOP
  | some .end_turn => .ok .STOP
  | some .max_tokens => .ok .LENGTH
  | some .stop_sequence => .ok .STOP
  | some .tool_use =>
      match tools_mode with
      | some .TOOLS => .ok .TOOL_CALLS
      | some .FUNCTIONS => .ok .FUNCTION_CALL
      | none => .error
          "A model has called a tool, but no tools were given to the model in the first place."

/-- `Role` of the aidial SDK wire format. -/
inductive Role where
  | SYSTEM
  | USER
  | ASSISTANT
  | FUNCTION
  | TOOL
deriving DecidableEq, Repr

/-- The wire `Message` of the aidial SDK (the fields inspected by
`parse_dial_message`). -/
structure WireMessage where
  role : Role
  content : Option String := none
  name : Option String := none
  tool_call_id : Option String := none
  tool_calls : Option (List ToolCall) := none
  function_call : Option FunctionCall := none
  custom_content : Option CustomContent := none
deriving DecidableEq, Repr

/-- `_parse_assistant_message` of `llm/message.py` (lines 104-119). -/
def parse_assistant_message (content : Option String)
    (function_call : Option FunctionCall) (tool_calls : Option (List ToolCall))
    (custom_content : Option CustomContent) : Except String Msg :=
  match content, function_call, tool_calls with
  | some c, none, none => .ok (.aiRegularMessage c custom_content)
  | c, some fc, none => .ok (.aiFunctionCallMessage fc c)
  | c, none, some tcs => .ok (.aiToolCallMessage tcs c)
  | _, _, _ => .error "Unknown type of assistant message"

/-- `parse_dial_message` of `llm/message.py` (lines 122-151). -/
def parse_dial_message (msg : WireMessage) : Except String Msg :=
  match msg.role with
  | .SYSTEM =>
      match msg.content with
      | some c => .ok (.systemMessage c)
      | none => .error "Unknown message type or invalid message"
  | .USER =>
      match msg.content with
      | some c => .ok (.humanRegularMessage c msg.custom_content)
      | none => .error "Unknown message type or invalid message"
  | .ASSISTANT =>
      parse_assistant_message msg.content msg.function_call msg.tool_calls
        msg.custom_content
  | .FUNCTION =>
      match msg.content, msg.name with
      | some c, some n => .ok (.humanFunctionResultMessage n c)
      | _, _ => .error "Unknown message type or invalid message"
  | .TOOL =>
      match msg.content, msg.tool_call_id with
      | some c, some i => .ok (.humanToolResultMessage i c)
      | _, _ => .error "Unknown message type or invalid message"

/-! ### Prompt truncation (modelled from the spec)

`aidial_adapter_bedrock/llm/truncate_prompt.py` and
`aidial_adapter_bedrock/llm/chat_model.py` are not part of the provided
sources; the definitions below are modelled from the specification (§4.3)
and validated against `tests/unit_tests/chat_emulation/test_llama_chat.py`.
-/

/-- Whether a message is a `SystemMessage`. -/
def Msg.isSystem : Msg → Bool
  | .systemMessage _ => true
  | _ => false

/-- The `content` field of a message (for optional contents, the empty
string when absent). -/
def Msg.text : Msg → String
  | .systemMessage c => c
  | .humanRegularMessage c _ => c
  | .aiRegularMessage c _ => c
  | .aiToolCallMessage _ c => c.getD ""
  | .aiFunctionCallMessage _ c => c.getD ""
  | .humanToolResultMessage _ c => c
  | .humanFunctionResultMessage _ c => c

/-- Modelled from the spec: "the effective budget is the smaller of the two
when both are present" (model-imposed hard limit, caller-supplied soft
limit). -/
def effectiveBudget (modelLimit : Option Nat) (userLimit : Nat) : Nat :=
  match modelLimit with
  | some m => min m userLimit
  | none => userLimit

/-- The sub-sequence of `messages` at the given indices (in index order). -/
def selectIdx (messages : List Msg) (idxs : List Nat) : List Msg :=
  idxs.filterMap (fun i => messages[i]?)

/-- The indices the keep-policy marks as mandatory, ascending. -/
def mandatoryIdx (messages : List Msg) (keep : List Msg → Nat → Bool) : List Nat :=
  (List.range messages.length).filter (keep messages)

/-- The non-mandatory indices, ascending. -/
def droppableIdx (messages : List Msg) (keep : List Msg → Nat → Bool) : List Nat :=
  (List.range messages.length).filter (fun i => !(keep messages i))

/-- The token count of the mandatory set. -/
def mandatoryTokens (messages : List Msg) (tokenize : List Msg → Nat)
    (keep : List Msg → Nat → Bool) : Nat :=
  tokenize (selectIdx messages (mandatoryIdx messages keep))

/-- Modelled from the spec: `TruncatePromptError`, "a terminal error carrying
the computed mandatory-token count and the configured budget". -/
structure TruncatePromptError where
  mandatoryTokens : Nat
  budget : Nat
  hasSystemMessages : Bool
deriving DecidableEq, Repr

/-- Modelled from the spec: the `print` method of `TruncatePromptError`.
The wording with system messages present is fixed by the spec and the test
`test_multi_turn_dialogue`; the spec only says the wording is "specialized"
when there are no system messages, so that branch's exact text is a guess. -/
def TruncatePromptError.print (e : TruncatePromptError) : String :=
  if e.hasSystemMessages then
    "Token count of the last message and all system messages (" ++
      toString e.mandatoryTokens ++ ") exceeds the maximum prompt tokens (" ++
      toString e.budget ++ ")."
  else
    "Token count of the last message (" ++ toString e.mandatoryTokens ++
      ") exceeds the maximum prompt tokens (" ++ toString e.budget ++ ")."

/-- Modelled from the spec: the greedy walk "from most-recent to
least-recent, greedily including each whole unit while the running total
stays within budget; stop at the first unit that would exceed budget".
Given the unit token costs, most recent first, returns how many units are
included. -/
def takeUnitsCount (budget : Nat) : Nat → List Nat → Nat
  | _, [] => 0
  | running, c :: cs =>
      if running + c ≤ budget then takeUnitsCount budget (running + c) cs + 1
      else 0

/-- The atomic turn units: the partition of the non-mandatory indices,
oldest first. -/
def truncUnits (messages : List Msg) (keep : List Msg → Nat → Bool)
    (partition : List Nat → List (List Nat)) : List (List Nat) :=
  partition (droppableIdx messages keep)

/-- The token cost of each atomic unit, most recent unit first. -/
def unitCosts (messages : List Msg) (tokenize : List Msg → Nat)
    (keep : List Msg → Nat → Bool) (partition : List Nat → List (List Nat)) :
    List Nat :=
  ((truncUnits messages keep partition).map
    (fun u => tokenize (selectIdx messages u))).reverse

/-- How many of the most recent units the greedy walk includes. -/
def includedUnits (messages : List Msg) (tokenize : List Msg → Nat)
    (keep : List Msg → Nat → Bool) (partition : List Nat → List (List Nat))
    (modelLimit : Option Nat) (userLimit : Nat) : Nat :=
  takeUnitsCount (effectiveBudget modelLimit userLimit)
    (mandatoryTokens messages tokenize keep)
    (unitCosts messages tokenize keep partition)

/-- Modelled from the spec: `truncate_prompt` of
`aidial_adapter_bedrock/llm/truncate_prompt.py`. Parameterized by a
token-counting function, a mandatory keep-policy, and a partitioning
function that groups the non-mandatory indices into atomic ordered units
(oldest first). Returns the ascending list of indices to discard, or a
typed error when the mandatory set alone exceeds the effective budget. -/
def truncate_prompt (messages : List Msg) (tokenize : List Msg → Nat)
    (keep : List Msg → Nat → Bool) (partition : List Nat → List (List Nat))
    (modelLimit : Option Nat) (userLimit : Nat) :
    Except TruncatePromptError (List Nat) :=
  if effectiveBudget modelLimit userLimit < mandatoryTokens messages tokenize keep then
    .error ⟨mandatoryTokens messages tokenize keep,
      effectiveBudget modelLimit userLimit, messages.any Msg.isSystem⟩
  else
    .ok ((truncUnits messages keep partition).take
      ((truncUnits messages keep partition).length -
        includedUnits messages tokenize keep partition modelLimit userLimit)).flatten

/-- Modelled from the spec: `default_keep_message` of
`aidial_adapter_bedrock/llm/chat_model.py` — "every system message, and the
final message" are mandatory. -/
def default_keep_message (messages : List Msg) (i : Nat) : Bool :=
  (match messages[i]? with
   | some m => m.isSystem
   | none => false) || (i + 1 == messages.length)

/-- Modelled from the spec: `llama_partitioner` of
`aidial_adapter_bedrock/llm/model/llama_chat.py` — groups the non-mandatory
indices into "consecutive human/assistant pairs, oldest first". -/
def llama_partitioner : List Nat → List (List Nat)
  | a :: b :: rest => [a, b] :: llama_partitioner rest
  | [a] => [[a]]
  | [] => []

/-! ### Llama chat emulation (modelled from the spec)

`aidial_adapter_bedrock/llm/model/llama_chat.py` is not part of the
provided sources; the emulator below is modelled from the specification
(§4.4) and validated against the construction/validation tests in
`tests/unit_tests/chat_emulation/test_llama_chat.py`. -/

/-- Python's `str.strip()`: drop leading and trailing whitespace. -/
def pyStrip (s : String) : String :=
  String.mk (((s.data.dropWhile Char.isWhitespace).reverse.dropWhile
    Char.isWhitespace).reverse)

/-- Whether a message is a `HumanRegularMessage`. -/
def Msg.isUser : Msg → Bool
  | .humanRegularMessage _ _ => true
  | _ => false

/-- Whether a message is an `AIRegularMessage`. -/
def Msg.isAI : Msg → Bool
  | .aiRegularMessage _ _ => true
  | _ => false

/-- Split off the optional leading system message. -/
def stripSystem : List Msg → Option String × List Msg
  | .systemMessage c :: rest => (some c, rest)
  | ms => (none, ms)

/-- Strict user/assistant alternation: the message at each even position
(counting from the given expectation) must be a user message and at each odd
position an assistant message. -/
def alternatesFrom : Bool → List Msg → Bool
  | _, [] => true
  | expectUser, m :: rest =>
      (if expectUser then m.isUser else m.isAI) && alternatesFrom (!expectUser) rest

/-- Whether the sequence ends on a user message. -/
def endsWithUser (ms : List Msg) : Bool :=
  match ms.getLast? with
  | some m => m.isUser
  | none => false

/-- The `<<SYS>>` block embedding the system content ahead of the first user
turn's own text. -/
def withSys : Option String → String → String
  | none, u => u
  | some s, u => "<<SYS>>\n" ++ s ++ "\n<</SYS>>\n\n" ++ u

/-- Render the alternating rounds: each user turn wrapped as
`[INST] ... [/INST]` after a sequence-start marker `<s>`, each assistant
turn as free text followed by the turn terminator `</s>`, contents stripped
after embedding the system block. -/
def renderRounds : Option String → List Msg → String
  | sys, [u] => "<s>[INST] " ++ pyStrip (withSys sys u.text) ++ " [/INST]"
  | sys, u :: a :: rest =>
      "<s>[INST] " ++ pyStrip (withSys sys u.text) ++ " [/INST] " ++
        pyStrip a.text ++ " </s>" ++ renderRounds none rest
  | _, [] => ""

/-- Modelled from the spec: `llama_emulator.display` of
`aidial_adapter_bedrock/llm/model/llama_chat.py`. Validates the optional
leading system message, the strict user/assistant alternation and the
user-final requirement (the relative order of the two validation errors on
inputs violating both is not pinned down by the sources), then renders the
prompt; the stop-sequence list is empty. A raised `ValidationError` is the
`.error` branch. -/
def llama_emulator_display (messages : List Msg) :
    Except String (String × List String) :=
  if !(alternatesFrom true (stripSystem messages).2) then
    .error "The model only supports initial optional system message and follow-up alternating human/assistant messages"
  else if !(endsWithUser (stripSystem messages).2) then
    .error "The last message must be from user"
  else
    .ok (renderRounds (stripSystem messages).1 (stripSystem messages).2, [])

/-- The word-count tokenizer of the truncation tests
(`truncate_prompt_by_words`): a message costs the number of
whitespace-separated words in its content. -/
def countWordsAux : Bool → List Char → Nat
  | _, [] => 0
  | inWord, c :: cs =>
      if c.isWhitespace then countWordsAux false cs
      else (if inWord then 0 else 1) + countWordsAux true cs

/-- `_tokenize_by_words` of the truncation tests: total word count of the
message contents. -/
def tokenize_by_words (messages : List Msg) : Nat :=
  (messages.map (fun m => countWordsAux false m.text.data)).sum

/-- The six-message conversation `turns_sys` of `test_multi_turn_dialogue`:
`[sys, user, ai, user, ai, user]`, every content a single word. -/
def turnsSys : List Msg :=
  [.systemMessage "system",
   .humanRegularMessage "hello" none,
   .aiRegularMessage "hi" none,
   .humanRegularMessage "ping" none,
   .aiRegularMessage "pong" none,
   .humanRegularMessage "improvise" none]

/-- `turns_no_sys` of `test_multi_turn_dialogue`: the same conversation
without the system message. -/
def turnsNoSys : List Msg := turnsSys.drop 1

/-- `truncate_prompt` as instantiated by the truncation tests
(`truncate_prompt_by_words`): word-count tokenizer, default keep-policy,
llama partitioner. -/
def truncate_prompt_by_words (messages : List Msg) (userLimit : Nat)
    (modelLimit : Option Nat := none) :
    Except TruncatePromptError (List Nat) :=
  truncate_prompt messages tokenize_by_words default_keep_message
    llama_partitioner modelLimit userLimit

/-! ### Helper lemmas -/

theorem takeUnitsCount_sum_le (b : Nat) (cs : List Nat) :
    ∀ r, r ≤ b → r + (cs.take (takeUnitsCount b r cs)).sum ≤ b := by
  induction cs with
  | nil => intro r h; simpa [takeUnitsCount] using h
  | cons c cs ih =>
      intro r h
      by_cases hc : r + c ≤ b
      · rw [takeUnitsCount, if_pos hc]
        have := ih (r + c) hc
        simp only [List.take_succ_cons, List.sum_cons]
        omega
      · rw [takeUnitsCount, if_neg hc]
        simpa using h

theorem takeUnitsCount_stop (b : Nat) (cs : List Nat) :
    ∀ r, takeUnitsCount b r cs < cs.length →
      b < r + (cs.take (takeUnitsCount b r cs + 1)).sum := by
  induction cs with
  | nil => intro r h; simp [takeUnitsCount] at h
  | cons c cs ih =>
      intro r h
      by_cases hc : r + c ≤ b
      · rw [takeUnitsCount, if_pos hc] at h ⊢
        have h' : takeUnitsCount b (r + c) cs < cs.length := by
          simpa using h
        have := ih (r + c) h'
        simp only [List.take_succ_cons, List.sum_cons]
        omega
      · rw [takeUnitsCount, if_neg hc]
        simp only [List.take_succ_cons, List.sum_cons, List.take_zero,
          List.sum_nil]
        omega

theorem takeUnitsCount_mono (b1 b2 : Nat) (h : b1 ≤ b2) (cs : List Nat) :
    ∀ r, takeUnitsCount b1 r cs ≤ takeUnitsCount b2 r cs := by
  induction cs with
  | nil => intro r; simp [takeUnitsCount]
  | cons c cs ih =>
      intro r
      by_cases hc : r + c ≤ b1
      · rw [takeUnitsCount, if_pos hc, takeUnitsCount, if_pos (hc.trans h)]
        exact Nat.succ_le_succ (ih (r + c))
      · rw [takeUnitsCount, if_neg hc]
        exact Nat.zero_le _

theorem flatten_take_isPrefix (l : List (List Nat)) (j : Nat) :
    List.IsPrefix (l.take j).flatten l.flatten :=
  ⟨(l.drop j).flatten, by rw [← List.flatten_append, List.take_append_drop]⟩

theorem droppableIdx_sorted (messages : List Msg) (keep : List Msg → Nat → Bool) :
    (droppableIdx messages keep).Pairwise (· < ·) :=
  (List.pairwise_lt_range _).filter _

theorem flatten_take_subset (l : List (List Nat)) (j1 j2 : Nat) (h : j1 ≤ j2) :
    (l.take j1).flatten ⊆ (l.take j2).flatten := by
  have heq : l.take j1 = (l.take j2).take j1 := by
    rw [List.take_take, Nat.min_eq_left h]
  rw [heq]
  exact (flatten_take_isPrefix (l.take j2) j1).sublist.subset

theorem isAI_eq_false_of_isUser (m : Msg) (h : m.isUser = true) :
    m.isAI = false := by
  cases m <;> simp [Msg.isUser, Msg.isAI] at h ⊢

theorem isUser_eq_false_of_isAI (m : Msg) (h : m.isAI = true) :
    m.isUser = false := by
  cases m <;> simp [Msg.isUser, Msg.isAI] at h ⊢

theorem alternatesFrom_adjacent_false (m1 m2 : Msg)
    (hbad : (m1.isUser = true ∧ m2.isUser = true) ∨
      (m1.isAI = true ∧ m2.isAI = true)) :
    ∀ (l1 : List Msg) (e : Bool) (l2 : List Msg),
      alternatesFrom e (l1 ++ m1 :: m2 :: l2) = false := by
  intro l1
  induction l1 with
  | nil =>
      intro e l2
      rcases hbad with ⟨h1, h2⟩ | ⟨h1, h2⟩
      · cases e <;>
          simp [alternatesFrom, h1, h2, isAI_eq_false_of_isUser m1 h1,
            isAI_eq_false_of_isUser m2 h2]
      · cases e <;>
          simp [alternatesFrom, h1, h2, isUser_eq_false_of_isAI m1 h1,
            isUser_eq_false_of_isAI m2 h2]
  | cons x l1 ih =>
      intro e l2
      simp [alternatesFrom, ih]

theorem alternatesFrom_ai_first (m : Msg) (l : List Msg) (h : m.isAI = true) :
    alternatesFrom true (m :: l) = false := by
  simp [alternatesFrom, isUser_eq_false_of_isAI m h]

theorem s_marker_split (y : String) :
    "<s>[INST] " ++ y = "<s>" ++ ("[INST] " ++ y) := by
  rw [← String.append_assoc]; rfl

theorem renderRounds_starts (sys : Option String) :
    ∀ ms : List Msg, ms ≠ [] → ∃ t, renderRounds sys ms = "<s>" ++ t := by
  intro ms hne
  match ms with
  | [u] =>
      have h1 : renderRounds sys [u] =
          "<s>[INST] " ++ (pyStrip (withSys sys u.text) ++ " [/INST]") := by
        rw [renderRounds, String.append_assoc]
      exact ⟨_, h1.trans (s_marker_split _)⟩
  | u :: a :: rest =>
      have h1 : renderRounds sys (u :: a :: rest) =
          "<s>[INST] " ++ (pyStrip (withSys sys u.text) ++ (" [/INST] " ++
            (pyStrip a.text ++ (" </s>" ++ renderRounds none rest)))) := by
        rw [renderRounds]
        simp only [String.append_assoc]
      exact ⟨_, h1.trans (s_marker_split _)⟩

/-! ### Claim theorems -/

/-- C6: under mode `FUNCTIONS`, `process_with_tools` rewrites an
`AIFunctionCallMessage` into an `AIToolCallMessage` with exactly one
`ToolCall` whose id is the function's name (preserving call and content),
and a `HumanFunctionResultMessage` into a `HumanToolResultMessage` whose id
is the function's name (preserving content); the rewrite is invertible back
to the original message. -/
theorem process_with_tools_functions_rewrite (call : FunctionCall)
    (content : Option String) (name rcontent : String) :
    process_with_tools (.aiFunctionCallMessage call content) (some .FUNCTIONS) =
      .ok (.aiToolCallMessage
        [{ index := none, id := call.name, type := "function", function := call }]
        content) ∧
    process_with_tools (.humanFunctionResultMessage name rcontent)
        (some .FUNCTIONS) =
      .ok (.humanToolResultMessage name rcontent) ∧
    functions_rewrite_inverse (.aiToolCallMessage
        [{ index := none, id := call.name, type := "function", function := call }]
        content) =
      some (.aiFunctionCallMessage call content) ∧
    functions_rewrite_inverse (.humanToolResultMessage name rcontent) =
      some (.humanFunctionResultMessage name rcontent) :=
  ⟨rfl, rfl, rfl, rfl⟩

/-- C7: `process_with_tools` rejects messages whose calling convention
conflicts with the mode — tool/function messages without a mode,
function messages under `TOOLS`, tool messages under `FUNCTIONS` — and
passes conforming messages through unchanged. -/
theorem process_with_tools_mode_validation (m : Msg) :
    (m.isToolMessage = true →
      process_with_tools m none = .error (.validation
        "You cannot use messages with functions or tools without config. Please change your messages.")) ∧
    (m.isBaseMessage = true → process_with_tools m none = .ok m) ∧
    ((∃ n c, m = .humanFunctionResultMessage n c) ∨
        (∃ f c, m = .aiFunctionCallMessage f c) →
      process_with_tools m (some .TOOLS) =
        .error (.validation "You cannot use function messages with tools config.")) ∧
    ((∃ cs c, m = .aiToolCallMessage cs c) ∨
        (∃ i c, m = .humanToolResultMessage i c) ∨ m.isBaseMessage = true →
      process_with_tools m (some .TOOLS) = .ok m) ∧
    ((∃ cs c, m = .aiToolCallMessage cs c) ∨
        (∃ i c, m = .humanToolResultMessage i c) →
      process_with_tools m (some .FUNCTIONS) =
        .error (.validation "You cannot use tools messages with functions config.")) ∧
    ((∃ c cc, m = .humanRegularMessage c cc) →
      process_with_tools m (some .FUNCTIONS) = .ok m) := by
  cases m <;>
    simp [process_with_tools, Msg.isToolMessage, Msg.isBaseMessage]

/-- Witness for C7 at concrete messages: a function-result message is
rejected without a mode and under `TOOLS`, and a human regular message
passes through under `FUNCTIONS`. -/
theorem process_with_tools_mode_validation_witness :
    (Msg.humanFunctionResultMessage "f" "r").isToolMessage = true ∧
    process_with_tools (.humanFunctionResultMessage "f" "r") none =
      .error (.validation
        "You cannot use messages with functions or tools without config. Please change your messages.") ∧
    process_with_tools (.humanFunctionResultMessage "f" "r") (some .TOOLS) =
      .error (.validation "You cannot use function messages with tools config.") ∧
    process_with_tools (.humanRegularMessage "hi" none) (some .FUNCTIONS) =
      .ok (.humanRegularMessage "hi" none) :=
  ⟨by decide,
   (process_with_tools_mode_validation (.humanFunctionResultMessage "f" "r")).1
     (by decide),
   (process_with_tools_mode_validation
       (.humanFunctionResultMessage "f" "r")).2.2.1 (.inl ⟨"f", "r", rfl⟩),
   (process_with_tools_mode_validation (.humanRegularMessage "hi" none)).2.2.2.2.2
     ⟨"hi", none, rfl⟩⟩

/-- C8: `to_dial_finish_reason` on backend reason `tool_use` fails without an
active tools mode, yields `TOOL_CALLS` under `TOOLS` and `FUNCTION_CALL`
under `FUNCTIONS`; `end_turn` and `stop_sequence` map to `STOP` and
`max_tokens` to `LENGTH` under every mode. -/
theorem to_dial_finish_reason_tool_use :
    to_dial_finish_reason (some .tool_use) none =
      .error "A model has called a tool, but no tools were given to the model in the first place." ∧
    to_dial_finish_reason (some .tool_use) (some .TOOLS) = .ok .TOOL_CALLS ∧
    to_dial_finish_reason (some .tool_use) (some .FUNCTIONS) = .ok .FUNCTION_CALL ∧
    (∀ mode, to_dial_finish_reason (some .end_turn) mode = .ok .STOP ∧
      to_dial_finish_reason (some .stop_sequence) mode = .ok .STOP ∧
      to_dial_finish_reason (some .max_tokens) mode = .ok .LENGTH) :=
  ⟨rfl, rfl, rfl, fun _ => ⟨rfl, rfl, rfl⟩⟩

/-- C10: an absent backend finish reason maps to the generic `STOP` reason
under every tools mode, and never raises. -/
theorem to_dial_finish_reason_none_stop (mode : Option ToolsMode) :
    to_dial_finish_reason none mode = .ok FinishReason.STOP := rfl

/-- C9: `parse_dial_message` returns exactly one message variant or a
validation error; an assistant message with both a function call and tool
calls fails, a system or user message with absent content fails, and a
tool-result or function-result message missing its correlation id or name
fails. -/
theorem parse_dial_message_validation (m : WireMessage) :
    ((∃ v, parse_dial_message m = .ok v) ∨ (∃ e, parse_dial_message m = .error e)) ∧
    (m.role = .ASSISTANT → m.function_call ≠ none → m.tool_calls ≠ none →
      parse_dial_message m = .error "Unknown type of assistant message") ∧
    ((m.role = .SYSTEM ∨ m.role = .USER) → m.content = none →
      parse_dial_message m = .error "Unknown message type or invalid message") ∧
    (m.role = .TOOL → m.tool_call_id = none →
      parse_dial_message m = .error "Unknown message type or invalid message") ∧
    (m.role = .FUNCTION → m.name = none →
      parse_dial_message m = .error "Unknown message type or invalid message") := by
  obtain ⟨role, content, name, tid, tcs, fc, cc⟩ := m
  refine ⟨?_, ?_, ?_, ?_, ?_⟩
  · cases h : parse_dial_message ⟨role, content, name, tid, tcs, fc, cc⟩ with
    | error e => exact .inr ⟨e, rfl⟩
    | ok v => exact .inl ⟨v, rfl⟩
  · rintro rfl hfc htcs
    cases fc with
    | none => exact absurd rfl hfc
    | some f =>
        cases tcs with
        | none => exact absurd rfl htcs
        | some t => cases content <;> rfl
  · rintro (rfl | rfl) rfl <;> rfl
  · rintro rfl rfl
    cases content <;> rfl
  · rintro rfl rfl
    cases content <;> rfl

/-- Witness for C9 at concrete wire messages: an assistant message with both
call shapes, a contentless user message, a tool message without id, and a
function message without name all fail. -/
theorem parse_dial_message_validation_witness :
    ((WireMessage.mk .ASSISTANT none none none (some []) (some ⟨"f", "{}"⟩)
        none).function_call ≠ none ∧
      (WireMessage.mk .ASSISTANT none none none (some []) (some ⟨"f", "{}"⟩)
        none).tool_calls ≠ none) ∧
    parse_dial_message
        (WireMessage.mk .ASSISTANT none none none (some []) (some ⟨"f", "{}"⟩) none) =
      .error "Unknown type of assistant message" ∧
    parse_dial_message (WireMessage.mk .USER none none none none none none) =
      .error "Unknown message type or invalid message" ∧
    parse_dial_message
        (WireMessage.mk .TOOL (some "out") none none none none none) =
      .error "Unknown message type or invalid message" ∧
    parse_dial_message
        (WireMessage.mk .FUNCTION (some "out") none none none none none) =
      .error "Unknown message type or invalid message" :=
  ⟨⟨by decide, by decide⟩,
   (parse_dial_message_validation _).2.1 rfl (by decide) (by decide),
   (parse_dial_message_validation _).2.2.1 (.inr rfl) rfl,
   (parse_dial_message_validation _).2.2.2.1 rfl rfl,
   (parse_dial_message_validation _).2.2.2.2 rfl rfl⟩

/-- C1: whenever the mandatory set fits the effective budget and the
partition covers exactly the non-mandatory indices, `truncate_prompt`
succeeds and returns the indices of the excluded oldest units in ascending
order, per the greedy most-recent-first walk (the included units fit the
budget, and the next older unit, if any, would exceed it); the discard set
never contains a mandatory index and never splits an atomic unit. In
particular the six-message test conversation at budget 4 discards exactly
indices 1 and 2. -/
theorem truncate_prompt_correct :
    (∀ (messages : List Msg) (tokenize : List Msg → Nat)
        (keep : List Msg → Nat → Bool) (partition : List Nat → List (List Nat))
        (modelLimit : Option Nat) (userLimit : Nat),
      (truncUnits messages keep partition).flatten = droppableIdx messages keep →
      mandatoryTokens messages tokenize keep ≤ effectiveBudget modelLimit userLimit →
      ∃ ds,
        truncate_prompt messages tokenize keep partition modelLimit userLimit =
          .ok ds ∧
        ds = ((truncUnits messages keep partition).take
          ((truncUnits messages keep partition).length -
            includedUnits messages tokenize keep partition modelLimit userLimit)).flatten ∧
        mandatoryTokens messages tokenize keep +
            ((unitCosts messages tokenize keep partition).take
              (includedUnits messages tokenize keep partition modelLimit
                userLimit)).sum ≤
          effectiveBudget modelLimit userLimit ∧
        (includedUnits messages tokenize keep partition modelLimit userLimit <
            (truncUnits messages keep partition).length →
          effectiveBudget modelLimit userLimit <
            mandatoryTokens messages tokenize keep +
              ((unitCosts messages tokenize keep partition).take
                (includedUnits messages tokenize keep partition modelLimit
                  userLimit + 1)).sum) ∧
        ds.Pairwise (· < ·) ∧
        (∀ i ∈ ds, keep messages i = false) ∧
        (∀ u ∈ truncUnits messages keep partition,
          (∀ i ∈ u, i ∈ ds) ∨ (∀ i ∈ u, i ∉ ds))) ∧
    truncate_prompt turnsSys tokenize_by_words default_keep_message
      llama_partitioner none 4 = .ok [1, 2] := by
  constructor
  · intro messages tokenize keep partition modelLimit userLimit hpart hfit
    refine ⟨_, ?_, rfl, ?_, ?_, ?_, ?_, ?_⟩
    · rw [truncate_prompt, if_neg (Nat.not_lt.mpr hfit)]
    · exact takeUnitsCount_sum_le _ _ _ hfit
    · intro hk
      have hlen : (unitCosts messages tokenize keep partition).length =
          (truncUnits messages keep partition).length := by
        simp [unitCosts]
      exact takeUnitsCount_stop (effectiveBudget modelLimit userLimit)
        (unitCosts messages tokenize keep partition)
        (mandatoryTokens messages tokenize keep) (by rw [hlen]; exact hk)
    · have hpre := flatten_take_isPrefix (truncUnits messages keep partition)
        ((truncUnits messages keep partition).length -
          includedUnits messages tokenize keep partition modelLimit userLimit)
      rw [hpart] at hpre
      exact (droppableIdx_sorted messages keep).sublist hpre.sublist
    · intro i hi
      have hpre := flatten_take_isPrefix (truncUnits messages keep partition)
        ((truncUnits messages keep partition).length -
          includedUnits messages tokenize keep partition modelLimit userLimit)
      rw [hpart] at hpre
      have hmem : i ∈ droppableIdx messages keep := hpre.sublist.subset hi
      simp only [droppableIdx] at hmem
      have hb := (List.mem_filter.mp hmem).2
      simpa using hb
    · intro u hu
      have hsplit : truncUnits messages keep partition =
          (truncUnits messages keep partition).take
            ((truncUnits messages keep partition).length -
              includedUnits messages tokenize keep partition modelLimit userLimit) ++
          (truncUnits messages keep partition).drop
            ((truncUnits messages keep partition).length -
              includedUnits messages tokenize keep partition modelLimit userLimit) :=
        (List.take_append_drop _ _).symm
      rw [hsplit] at hu
      rcases List.mem_append.mp hu with h | h
      · exact .inl (fun i hi => List.mem_flatten.mpr ⟨u, h, hi⟩)
      · refine .inr (fun i hi hids => ?_)
        have hdrop : i ∈ ((truncUnits messages keep partition).drop
            ((truncUnits messages keep partition).length -
              includedUnits messages tokenize keep partition modelLimit
                userLimit)).flatten :=
          List.mem_flatten.mpr ⟨u, h, hi⟩
        have hsor : (((truncUnits messages keep partition).take
            ((truncUnits messages keep partition).length -
              includedUnits messages tokenize keep partition modelLimit
                userLimit)).flatten ++
          ((truncUnits messages keep partition).drop
            ((truncUnits messages keep partition).length -
              includedUnits messages tokenize keep partition modelLimit
                userLimit)).flatten).Pairwise (· < ·) := by
          rw [← List.flatten_append, List.take_append_drop, hpart]
          exact droppableIdx_sorted messages keep
        exact lt_irrefl i ((List.pairwise_append.mp hsor).2.2 i hids i hdrop)
  · rfl

/-- Witness for C1 at the six-message test conversation and budget 4:
the hypotheses hold and the discard set [1, 2] is ascending and
mandatory-free. -/
theorem truncate_prompt_correct_witness :
    ((truncUnits turnsSys default_keep_message llama_partitioner).flatten =
        droppableIdx turnsSys default_keep_message ∧
      mandatoryTokens turnsSys tokenize_by_words default_keep_message ≤
        effectiveBudget none 4) ∧
    ∃ ds, truncate_prompt turnsSys tokenize_by_words default_keep_message
        llama_partitioner none 4 = .ok ds ∧
      ds.Pairwise (· < ·) ∧ ∀ i ∈ ds, default_keep_message turnsSys i = false := by
  refine ⟨⟨by decide, by decide⟩, ?_⟩
  obtain ⟨ds, h1, -, -, -, h5, h6, -⟩ :=
    truncate_prompt_correct.1 turnsSys tokenize_by_words default_keep_message
      llama_partitioner none 4 (by decide) (by decide)
  exact ⟨ds, h1, h5, h6⟩

/-- C2: when the mandatory token count exceeds the effective budget,
`truncate_prompt` returns a typed error whose reported mandatory count and
budget equal the computed values, and (for a conversation containing a
system message) whose printed text is exactly the documented message with
the numbers substituted. -/
theorem truncate_prompt_mandatory_overflow (messages : List Msg)
    (tokenize : List Msg → Nat) (keep : List Msg → Nat → Bool)
    (partition : List Nat → List (List Nat)) (modelLimit : Option Nat)
    (userLimit : Nat)
    (hover : effectiveBudget modelLimit userLimit <
      mandatoryTokens messages tokenize keep)
    (hsys : messages.any Msg.isSystem = true) :
    ∃ e, truncate_prompt messages tokenize keep partition modelLimit userLimit =
        .error e ∧
      e.mandatoryTokens = mandatoryTokens messages tokenize keep ∧
      e.budget = effectiveBudget modelLimit userLimit ∧
      e.print = "Token count of the last message and all system messages (" ++
        toString (mandatoryTokens messages tokenize keep) ++
        ") exceeds the maximum prompt tokens (" ++
        toString (effectiveBudget modelLimit userLimit) ++ ")." := by
  refine ⟨⟨mandatoryTokens messages tokenize keep,
    effectiveBudget modelLimit userLimit, messages.any Msg.isSystem⟩, ?_, rfl, rfl, ?_⟩
  · rw [truncate_prompt, if_pos hover]
  · simp [TruncatePromptError.print, hsys]

/-- Witness for C2 at the six-message test conversation and budget 1:
the mandatory count 2 exceeds the budget 1 and the error reports exactly
the documented text. -/
theorem truncate_prompt_mandatory_overflow_witness :
    (effectiveBudget none 1 <
        mandatoryTokens turnsSys tokenize_by_words default_keep_message ∧
      turnsSys.any Msg.isSystem = true) ∧
    ∃ e, truncate_prompt turnsSys tokenize_by_words default_keep_message
        llama_partitioner none 1 = .error e ∧
      e.mandatoryTokens = 2 ∧ e.budget = 1 ∧
      e.print = "Token count of the last message and all system messages (2) exceeds the maximum prompt tokens (1)." := by
  refine ⟨⟨by decide, by decide⟩, ?_⟩
  obtain ⟨e, h1, h2, h3, h4⟩ :=
    truncate_prompt_mandatory_overflow turnsSys tokenize_by_words
      default_keep_message llama_partitioner none 1 (by decide) (by decide)
  exact ⟨e, h1, h2.trans (by decide), h3.trans (by decide), h4.trans (by decide)⟩

/-- C3: `truncate_prompt` is monotonic in the budget — for a fixed
conversation, tokenizer, keep-policy and partition, a larger user budget
never discards more: the discard set at the larger budget is a subset of the
discard set at the smaller one. -/
theorem truncate_prompt_budget_monotone (messages : List Msg)
    (tokenize : List Msg → Nat) (keep : List Msg → Nat → Bool)
    (partition : List Nat → List (List Nat)) (modelLimit : Option Nat)
    (u1 u2 : Nat) (ds1 ds2 : List Nat) (hle : u1 ≤ u2)
    (h1 : truncate_prompt messages tokenize keep partition modelLimit u1 = .ok ds1)
    (h2 : truncate_prompt messages tokenize keep partition modelLimit u2 = .ok ds2) :
    ds2 ⊆ ds1 := by
  have hbud : effectiveBudget modelLimit u1 ≤ effectiveBudget modelLimit u2 := by
    cases modelLimit with
    | none => simpa [effectiveBudget] using hle
    | some m => simp only [effectiveBudget]; omega
  rw [truncate_prompt] at h1 h2
  split at h1
  · simp at h1
  · split at h2
    · simp at h2
    · injection h1 with h1
      injection h2 with h2
      subst h1
      subst h2
      apply flatten_take_subset
      apply Nat.sub_le_sub_left
      exact takeUnitsCount_mono _ _ hbud _ _

/-- Witness for C3: at budgets 4 ≤ 6 on the six-message test conversation,
the discard set shrinks from [1, 2] to []. -/
theorem truncate_prompt_budget_monotone_witness :
    (4 ≤ 6 ∧
      truncate_prompt turnsSys tokenize_by_words default_keep_message
        llama_partitioner none 4 = .ok [1, 2] ∧
      truncate_prompt turnsSys tokenize_by_words default_keep_message
        llama_partitioner none 6 = .ok []) ∧
    ([] : List Nat) ⊆ [1, 2] :=
  ⟨⟨by decide, rfl, rfl⟩,
    truncate_prompt_budget_monotone turnsSys tokenize_by_words
      default_keep_message llama_partitioner none 4 6 [1, 2] []
      (by decide) rfl rfl⟩

/-- C4: on a structurally valid sequence (optional leading system message,
strict user/assistant alternation ending on a user message) the Llama
emulator succeeds with no stop sequences, rendering the rounds with
`[INST]`/`<<SYS>>` wrapping and stripped contents; the prompt is prefixed
with the sequence-start marker `<s>`, and the single-user example renders
exactly as documented. -/
theorem llama_display_valid (messages : List Msg)
    (halt : alternatesFrom true (stripSystem messages).2 = true)
    (hend : endsWithUser (stripSystem messages).2 = true) :
    llama_emulator_display messages =
      .ok (renderRounds (stripSystem messages).1 (stripSystem messages).2, []) ∧
    (∃ t, renderRounds (stripSystem messages).1 (stripSystem messages).2 =
      "<s>" ++ t) ∧
    llama_emulator_display [.humanRegularMessage "human message1" none] =
      .ok ("<s>[INST] human message1 [/INST]", []) := by
  refine ⟨?_, ?_, rfl⟩
  · simp [llama_emulator_display, halt, hend]
  · apply renderRounds_starts
    intro hnil
    rw [hnil] at hend
    simp [endsWithUser] at hend

/-- Witness for C4 at the with-system construction test: the four-message
conversation renders exactly the documented prompt. -/
theorem llama_display_valid_witness :
    (alternatesFrom true (stripSystem
        [.systemMessage " system message1 ",
         .humanRegularMessage "  human message1  " none,
         .aiRegularMessage "     ai message1     " none,
         .humanRegularMessage "  human message2  " none]).2 = true ∧
      endsWithUser (stripSystem
        [Msg.systemMessage " system message1 ",
         .humanRegularMessage "  human message1  " none,
         .aiRegularMessage "     ai message1     " none,
         .humanRegularMessage "  human message2  " none]).2 = true) ∧
    llama_emulator_display
        [.systemMessage " system message1 ",
         .humanRegularMessage "  human message1  " none,
         .aiRegularMessage "     ai message1     " none,
         .humanRegularMessage "  human message2  " none] =
      .ok ("<s>[INST] <<SYS>>\n system message1 \n<</SYS>>\n\n  human message1 [/INST] ai message1 </s><s>[INST] human message2 [/INST]",
        []) :=
  ⟨⟨by decide, by decide⟩,
    ((llama_display_valid
        [.systemMessage " system message1 ",
         .humanRegularMessage "  human message1  " none,
         .aiRegularMessage "     ai message1     " none,
         .humanRegularMessage "  human message2  " none]
        (by decide) (by decide)).1).trans rfl⟩

/-- C5: the emulator fails with exactly "The last message must be from user"
on a properly alternating sequence that does not end on a user message, and
with exactly the documented alternation error on any non-alternating
adjacency: two consecutive user messages, two consecutive assistant
messages, or an assistant message first after the optional system
message. -/
theorem llama_display_errors (messages : List Msg) :
    (alternatesFrom true (stripSystem messages).2 = true →
      endsWithUser (stripSystem messages).2 = false →
      llama_emulator_display messages =
        .error "The last message must be from user") ∧
    (∀ l1 m1 m2 l2, (stripSystem messages).2 = l1 ++ m1 :: m2 :: l2 →
      (m1.isUser = true ∧ m2.isUser = true) ∨
        (m1.isAI = true ∧ m2.isAI = true) →
      llama_emulator_display messages =
        .error "The model only supports initial optional system message and follow-up alternating human/assistant messages") ∧
    (∀ m l, (stripSystem messages).2 = m :: l → m.isAI = true →
      llama_emulator_display messages =
        .error "The model only supports initial optional system message and follow-up alternating human/assistant messages") := by
  refine ⟨?_, ?_, ?_⟩
  · intro halt hend
    simp [llama_emulator_display, halt, hend]
  · intro l1 m1 m2 l2 heq hbad
    have hfalse : alternatesFrom true (stripSystem messages).2 = false := by
      rw [heq]
      exact alternatesFrom_adjacent_false m1 m2 hbad l1 true l2
    simp [llama_emulator_display, hfalse]
  · intro m l heq hai
    have hfalse : alternatesFrom true (stripSystem messages).2 = false := by
      rw [heq]
      exact alternatesFrom_ai_first m l hai
    simp [llama_emulator_display, hfalse]

/-- Witness for C5 at the two validation tests: assistant-first fails with
the alternation error, and an assistant-final sequence fails with the
last-message error. -/
theorem llama_display_errors_witness :
    llama_emulator_display
        [.aiRegularMessage "     ai message1     " none,
         .humanRegularMessage "  human message1  " none,
         .humanRegularMessage "  human message2  " none] =
      .error "The model only supports initial optional system message and follow-up alternating human/assistant messages" ∧
    llama_emulator_display
        [.humanRegularMessage "  human message1  " none,
         .aiRegularMessage "     ai message1     " none,
         .humanRegularMessage "  human message2  " none,
         .aiRegularMessage "     ai message2     " none] =
      .error "The last message must be from user" :=
  ⟨(llama_display_errors
      [.aiRegularMessage "     ai message1     " none,
       .humanRegularMessage "  human message1  " none,
       .humanRegularMessage "  human message2  " none]).2.2
      (.aiRegularMessage "     ai message1     " none)
      [.humanRegularMessage "  human message1  " none,
       .humanRegularMessage "  human message2  " none] rfl (by decide),
   (llama_display_errors
      [.humanRegularMessage "  human message1  " none,
       .aiRegularMessage "     ai message1     " none,
       .humanRegularMessage "  human message2  " none,
       .aiRegularMessage "     ai message2     " none]).1
      (by decide) (by decide)⟩

end Bedrock
